import Mathlib

set_option maxRecDepth 16000

/-
Shallow embedding of src/terraform/lambda/lambda_function.py (ESP-Rover voice
command Lambda).  Python dictionaries whose values are strings or None are
modelled as insertion-ordered association lists over a small value type;
Python dict iteration order is the insertion order of the literal, which the
embedding preserves by using a plain list of (phrase, entry) pairs.
External effects (base64 decode, S3, Transcribe) are modelled by oracle
environments recording the outcome of each call site; a raised exception is
an Except.error value.
-/

/-- Value stored in a command dictionary: a JSON string or the JSON null that
Python None serializes to. -/
inductive PyVal where
  | str (s : String)
  | none
  deriving DecidableEq, Repr

/-- A Python dict with string keys, as an insertion-ordered association list.
The catalog guarantees unique keys. -/
abbrev Cmd := List (String × PyVal)

/-- First-match association lookup, the semantics of Python dict indexing and
of the membership test key in dict (keys are unique in every dict we build). -/
def assocGet {β : Type} : List (String × β) → String → Option β
  | [], _ => Option.none
  | (k, v) :: rest, key => if k = key then Option.some v else assocGet rest key

/-- Reading a key from a command dict: d.get(k) / d[k]. -/
def dictGet (d : Cmd) (k : String) : Option PyVal :=
  assocGet d k

/-- Writing a key on a command dict, the semantics of d[k] = v: update the
value in place when the key exists, append the pair otherwise. -/
def dictSet (d : Cmd) (k : String) (v : PyVal) : Cmd :=
  if (dictGet d k).isSome then
    d.map (fun p => if p.1 = k then (p.1, v) else p)
  else
    d ++ [(k, v)]

/-- Python str.lower for the ASCII strings this system handles: lowercase
every character. -/
def pyLower (s : String) : String :=
  String.mk (s.toList.map Char.toLower)

/-- Python str.strip: drop whitespace from both ends. -/
def pyStrip (s : String) : String :=
  String.mk (((s.toList.dropWhile Char.isWhitespace).reverse.dropWhile
    Char.isWhitespace).reverse)

/-- Helper for pySplit: walk the characters, accumulating the current word in
reverse. -/
def pySplitAux : List Char → List Char → List String
  | [], acc => if acc.isEmpty then [] else [String.mk acc.reverse]
  | c :: cs, acc =>
    if c.isWhitespace then
      if acc.isEmpty then pySplitAux cs []
      else String.mk acc.reverse :: pySplitAux cs []
    else
      pySplitAux cs (c :: acc)

/-- Python str.split with no argument: split on runs of whitespace, producing
no empty words. -/
def pySplit (s : String) : List String :=
  pySplitAux s.toList []

/-- The COMMAND_MAPPINGS dict literal of lambda_function.py, lines 20-58, in
definition order. -/
def COMMAND_MAPPINGS : List (String × Cmd) := [
  ("forward", [("action", PyVal.str "move"), ("direction", PyVal.str "forward"), ("speed", PyVal.str "normal")]),
  ("move forward", [("action", PyVal.str "move"), ("direction", PyVal.str "forward"), ("speed", PyVal.str "normal")]),
  ("go forward", [("action", PyVal.str "move"), ("direction", PyVal.str "forward"), ("speed", PyVal.str "normal")]),
  ("backward", [("action", PyVal.str "move"), ("direction", PyVal.str "backward"), ("speed", PyVal.str "normal")]),
  ("move backward", [("action", PyVal.str "move"), ("direction", PyVal.str "backward"), ("speed", PyVal.str "normal")]),
  ("go backward", [("action", PyVal.str "move"), ("direction", PyVal.str "backward"), ("speed", PyVal.str "normal")]),
  ("reverse", [("action", PyVal.str "move"), ("direction", PyVal.str "backward"), ("speed", PyVal.str "normal")]),
  ("turn left", [("action", PyVal.str "turn"), ("direction", PyVal.str "left"), ("speed", PyVal.str "normal")]),
  ("left", [("action", PyVal.str "turn"), ("direction", PyVal.str "left"), ("speed", PyVal.str "normal")]),
  ("turn right", [("action", PyVal.str "turn"), ("direction", PyVal.str "right"), ("speed", PyVal.str "normal")]),
  ("right", [("action", PyVal.str "turn"), ("direction", PyVal.str "right"), ("speed", PyVal.str "normal")]),
  ("strafe left", [("action", PyVal.str "strafe"), ("direction", PyVal.str "left"), ("speed", PyVal.str "normal")]),
  ("slide left", [("action", PyVal.str "strafe"), ("direction", PyVal.str "left"), ("speed", PyVal.str "normal")]),
  ("strafe right", [("action", PyVal.str "strafe"), ("direction", PyVal.str "right"), ("speed", PyVal.str "normal")]),
  ("slide right", [("action", PyVal.str "strafe"), ("direction", PyVal.str "right"), ("speed", PyVal.str "normal")]),
  ("forward left", [("action", PyVal.str "diagonal"), ("direction", PyVal.str "forward_left"), ("speed", PyVal.str "normal")]),
  ("forward right", [("action", PyVal.str "diagonal"), ("direction", PyVal.str "forward_right"), ("speed", PyVal.str "normal")]),
  ("backward left", [("action", PyVal.str "diagonal"), ("direction", PyVal.str "backward_left"), ("speed", PyVal.str "normal")]),
  ("backward right", [("action", PyVal.str "diagonal"), ("direction", PyVal.str "backward_right"), ("speed", PyVal.str "normal")]),
  ("stop", [("action", PyVal.str "stop"), ("direction", PyVal.none), ("speed", PyVal.none)]),
  ("halt", [("action", PyVal.str "stop"), ("direction", PyVal.none), ("speed", PyVal.none)]),
  ("freeze", [("action", PyVal.str "stop"), ("direction", PyVal.none), ("speed", PyVal.none)]),
  ("slow", [("modifier", PyVal.str "speed"), ("value", PyVal.str "slow")]),
  ("fast", [("modifier", PyVal.str "speed"), ("value", PyVal.str "fast")]),
  ("quickly", [("modifier", PyVal.str "speed"), ("value", PyVal.str "fast")]),
  ("slowly", [("modifier", PyVal.str "speed"), ("value", PyVal.str "slow")])
]

/-- The loop condition of the speed-modifier scan, lines 232-233: the word is
a catalog key and its entry carries modifier == speed. -/
def isSpeedWord (w : String) : Bool :=
  match assocGet COMMAND_MAPPINGS w with
  | Option.some cmd => dictGet cmd "modifier" = Option.some (PyVal.str "speed")
  | Option.none => false

/-- The speed-modifier scan, lines 231-235: first token satisfying the
condition wins and the scan stops (break).  On a hit the value returned is
COMMAND_MAPPINGS[word]["value"] (always present for the fixed catalog). -/
def find_speed_modifier : List String → Option PyVal
  | [] => Option.none
  | w :: ws =>
    if isSpeedWord w then
      (assocGet COMMAND_MAPPINGS w).bind (fun c => dictGet c "value")
    else
      find_speed_modifier ws

/-- Raw word-overlap score of lines 246-251: how many of the words of the
phrase (with multiplicity) occur in the input token list. -/
def phraseScore (words : List String) (phrase : String) : Nat :=
  ((pySplit phrase).filter (fun w => words.contains w)).length

/-- One iteration of the best-match loop, lines 241-258: skip entries that
carry a modifier key, score the rest, and replace the running best only on a
strictly greater normalized score with a positive raw score.  The float
division of line 254 is exact on these small fractions, so it is modelled by
exact rational division (mkRat n d is the rational n / d). -/
def bestStep (words : List String) (acc : Option Cmd × ℚ) (e : String × Cmd) :
    Option Cmd × ℚ :=
  if (dictGet e.2 "modifier").isSome then acc
  else
    let score := phraseScore words e.1
    let normalized_score : ℚ := mkRat score ((pySplit e.1).length)
    if normalized_score > acc.2 ∧ 0 < score then (Option.some e.2, normalized_score)
    else acc

/-- The best-match loop of lines 238-258, folded over the catalog in
definition order, starting from best_match = None and best_score = 0. -/
def find_best (words : List String) : Option Cmd × ℚ :=
  COMMAND_MAPPINGS.foldl (bestStep words) (Option.none, 0)

/-- parse_command_from_text, lines 213-271.  Normalize, try the exact-match
fast path, otherwise scan for a speed modifier and a best-scoring template,
then overwrite the speed field when a modifier was found.  The dict copies of
lines 222 and 258 are value copies here; aliasing is studied separately in
the store model below. -/
def parse_command_from_text (text : String) : Option Cmd :=
  let t := pyStrip (pyLower text)
  match assocGet COMMAND_MAPPINGS t with
  | Option.some cmd => Option.some cmd
  | Option.none =>
    let words := pySplit t
    let speed_modifier := find_speed_modifier words
    match (find_best words).1 with
    | Option.some best_match =>
      match speed_modifier with
      | Option.some v => Option.some (dictSet best_match "speed" v)
      | Option.none => Option.some best_match
    | Option.none => Option.none

/-- Outcome of one get_transcription_job poll, lines 172-195: the job status,
and for a COMPLETED job the outcome of fetching and JSON-decoding the
transcript (an Except.error models an exception raised while fetching, which
the enclosing except block turns into None). -/
inductive JobPoll where
  | completed (fetch : Except String String)
  | failed
  | inProgress

/-- Timeout ceiling of the polling loop, line 167 (seconds). -/
def max_wait_time : Nat := 30

/-- Poll cadence of the polling loop, line 168 (seconds, also the increment
of elapsed_time per iteration). -/
def wait_interval : Nat := 1

/-- The while loop of lines 171-198, translated by structural recursion on
remaining = max_wait_time - elapsed_time, which the loop keeps invariant:
remaining = 0 is exactly the exit condition elapsed_time >= max_wait_time, and
every other iteration polls once at the current second and either returns the
lowercased, stripped transcript (COMPLETED), falls through to return None
(FAILED breaks out of the loop; a raised fetch fault reaches the enclosing
except block), or sleeps wait_interval and re-polls. -/
def transcribe_poll (getJob : Nat → JobPoll) (elapsed_time remaining : Nat) :
    Option String :=
  match remaining with
  | 0 => Option.none
  | r + 1 =>
    match getJob elapsed_time with
    | JobPoll.completed (Except.ok t) => Option.some (pyStrip (pyLower t))
    | JobPoll.completed (Except.error _) => Option.none
    | JobPoll.failed => Option.none
    | JobPoll.inProgress => transcribe_poll getJob (elapsed_time + wait_interval) r

/-- Oracle environment for transcribe_audio: the outcome of
start_transcription_job, the status returned by the poll at each elapsed
second, and the outcome of the finally-block delete_transcription_job (always
swallowed, lines 206-211, so it never influences the returned value). -/
structure TranscribeEnv where
  startJobResult : Except String Unit
  getJob : Nat → JobPoll
  deleteJobResult : Except String Unit

/-- transcribe_audio, lines 145-211: a raised fault while starting the job is
caught by the except block and yields None; otherwise run the polling loop
from elapsed_time = 0. -/
def transcribe_audio (env : TranscribeEnv) : Option String :=
  match env.startJobResult with
  | Except.error _ => Option.none
  | Except.ok _ => transcribe_poll env.getJob 0 max_wait_time

/-- Python truthiness of an optional string: None and the empty string are
falsy. -/
def pyTruthyStr : Option String → Bool
  | Option.none => false
  | Option.some s => !s.isEmpty

/-- Python truthiness of an optional command dict: None and the empty dict
are falsy. -/
def pyTruthyCmd : Option Cmd → Bool
  | Option.none => false
  | Option.some c => !c.isEmpty

/-- Oracle environment for process_voice_command: the outcome of
base64.b64decode on the request audio, of the S3 put_object upload, the
transcription environment, and the outcome of the cleanup delete_object
(caught and logged at lines 133-137, so it never influences the returned
value). -/
structure PipelineEnv where
  decodeResult : Except String (List Nat)
  putResult : Except String Unit
  trans : TranscribeEnv
  deleteObjectResult : Except String Unit

/-- process_voice_command, lines 95-143.  Every fault raised inside the body
(decoding, upload, and any fault the transcription gateway re-raises) is
caught by the except block at lines 141-143 and becomes None.  A falsy
transcript yields None; otherwise the transcript is parsed and, when a
command was produced and a truthy rover_ip was supplied, the rover_ip key is
written onto the command dict. -/
def process_voice_command (env : PipelineEnv) (rover_ip : Option String) :
    Option Cmd :=
  match env.decodeResult with
  | Except.error _ => Option.none
  | Except.ok _ =>
    match env.putResult with
    | Except.error _ => Option.none
    | Except.ok _ =>
      let transcript := transcribe_audio env.trans
      if pyTruthyStr transcript then
        let command := parse_command_from_text (transcript.getD "")
        if pyTruthyCmd command && pyTruthyStr rover_ip then
          command.map (fun c => dictSet c "rover_ip" (PyVal.str (rover_ip.getD "")))
        else command
      else Option.none

/-- Parsed request body: the audio field and the optional rover_ip field of
the JSON envelope. -/
structure ReqBody where
  audio : Option String
  rover_ip : Option String

/-- Outcome of reading the body field of the event: json.loads either raises
(malformed, carrying the exception text) or produces the parsed body. -/
inductive EventBody where
  | malformed (msg : String)
  | parsed (b : ReqBody)

/-- The incoming Lambda event: a body key may be absent. -/
structure Event where
  body : Option EventBody

/-- The JSON payload of every response built by this handler. -/
structure RespPayload where
  success : Bool
  command : Option Cmd
  error : Option String
  timestamp : Nat
  deriving DecidableEq

/-- An API Gateway response value. -/
structure Response where
  statusCode : Nat
  headers : List (String × String)
  body : RespPayload
  deriving DecidableEq

/-- The constant header block of lines 279-284 and 298-303. -/
def corsHeaders : List (String × String) := [
  ("Content-Type", "application/json"),
  ("Access-Control-Allow-Origin", "*"),
  ("Access-Control-Allow-Methods", "POST, OPTIONS"),
  ("Access-Control-Allow-Headers", "Content-Type")]

/-- create_success_response, lines 273-290; the timestamp is the current unix
epoch second, passed in explicitly here. -/
def create_success_response (command : Cmd) (now : Nat) : Response :=
  { statusCode := 200
    headers := corsHeaders
    body := { success := true, command := Option.some command,
              error := Option.none, timestamp := now } }

/-- create_error_response, lines 292-309. -/
def create_error_response (status_code : Nat) (message : String) (now : Nat) :
    Response :=
  { statusCode := status_code
    headers := corsHeaders
    body := { success := false, command := Option.none,
              error := Option.some message, timestamp := now } }

/-- lambda_handler, lines 60-93: missing body and missing audio give 400; a
body that json.loads fails to parse raises, reaching the top-level except
block, which gives 500 with the exception text appended to the fixed
message; a truthy command gives 200 and a falsy one gives 400. -/
def lambda_handler (env : PipelineEnv) (now : Nat) (event : Event) : Response :=
  match event.body with
  | Option.none => create_error_response 400 "Missing request body" now
  | Option.some (EventBody.malformed msg) =>
    create_error_response 500 ("Internal server error: " ++ msg) now
  | Option.some (EventBody.parsed b) =>
    match b.audio with
    | Option.none => create_error_response 400 "Missing audio data" now
    | Option.some _ =>
      let command := process_voice_command env b.rover_ip
      if pyTruthyCmd command then
        create_success_response (command.getD []) now
      else
        create_error_response 400 "No valid command recognized" now

/-
Store model of dict identity, used for the copy-versus-alias property.  A
store is the list of live dict objects; a reference is an index.  The catalog
dicts occupy the initial segment; every .copy() in the source allocates a
fresh dict at the end of the store, and an index assignment d[k] = v mutates
the dict a reference points to, in place.  The losing copies made while the
best-match loop runs (line 258 executes once per replacement) are unreachable
garbage as soon as the loop moves on, so the model allocates only the copy
that the function returns.
-/

/-- A heap of dict objects. -/
abbrev Store := List Cmd

/-- The store holding exactly the catalog dicts, in catalog order. -/
def catalogStore : Store :=
  COMMAND_MAPPINGS.map Prod.snd

/-- Allocate a fresh dict, returning the extended store and the fresh
reference. -/
def alloc (s : Store) (c : Cmd) : Store × Nat :=
  (s ++ [c], s.length)

/-- In-place mutation d[k] = v of the dict a reference points to. -/
def setRef (s : Store) (r : Nat) (k : String) (v : PyVal) : Store :=
  match s.get? r with
  | Option.some d => s.set r (dictSet d k v)
  | Option.none => s

/-- parse_command_from_text in the store model: identical decision structure
to parse_command_from_text, but the returned dict is a fresh allocation (the
.copy() of line 222 or the last-executed .copy() of line 258) and the speed
overwrite of line 265 is an in-place mutation of that fresh dict. -/
def parse_command_ref (text : String) (s : Store) : Store × Option Nat :=
  let t := pyStrip (pyLower text)
  match assocGet COMMAND_MAPPINGS t with
  | Option.some cmd =>
    let (s2, r) := alloc s cmd
    (s2, Option.some r)
  | Option.none =>
    let words := pySplit t
    let speed_modifier := find_speed_modifier words
    match (find_best words).1 with
    | Option.some best_match =>
      let (s2, r) := alloc s best_match
      match speed_modifier with
      | Option.some v => (setRef s2 r "speed" v, Option.some r)
      | Option.none => (s2, Option.some r)
    | Option.none => (s, Option.none)

/-
Specification-side reading of the tie-break rule, for the refinement claim
about the best-match loop.  These definitions follow the words of the spec,
not the code: among the CommandTemplate entries whose bag-of-words score is
positive, take the highest normalized score, and of the phrases achieving it
keep the first in catalog iteration order.
-/

/-- Modelled from the spec: an entry is a match candidate when it is not a
SpeedModifier entry and its score is strictly positive. -/
def isCandidate (words : List String) (e : String × Cmd) : Bool :=
  (dictGet e.2 "modifier").isNone && decide (0 < phraseScore words e.1)

/-- Normalized bag-of-words containment score of one catalog entry. -/
def entryNS (words : List String) (e : String × Cmd) : ℚ :=
  mkRat (phraseScore words e.1) ((pySplit e.1).length)

/-- Modelled from the spec: the best score achieved by any candidate entry
of the list (zero when there is no candidate). -/
def specMaxScore (words : List String) : List (String × Cmd) → ℚ
  | [] => 0
  | e :: es =>
    if isCandidate words e then max (entryNS words e) (specMaxScore words es)
    else specMaxScore words es

/-- Modelled from the spec: the first candidate entry of the list achieving
the given score, in iteration order. -/
def specFirstAt (words : List String) (m : ℚ) : List (String × Cmd) → Option Cmd
  | [] => Option.none
  | e :: es =>
    if isCandidate words e && decide (entryNS words e = m) then Option.some e.2
    else specFirstAt words m es

/-- Modelled from the spec: the command of the first phrase in catalog
iteration order that achieves the best positive score, absent when no phrase
scores above zero. -/
def spec_first_best (words : List String) (es : List (String × Cmd)) : Option Cmd :=
  specFirstAt words (specMaxScore words es) es

/-
Theorems.  Shared helper lemmas come first, then one theorem per claim with
its witness or counterexample.
-/

/-- Helper: when every modifier-free catalog phrase scores zero against the
token list, the best-match fold never replaces its accumulator (entries that
carry a modifier key are skipped by the loop whatever they score). -/
lemma foldl_bestStep_of_zero (ws : List String) :
    ∀ (es : List (String × Cmd)) (acc : Option Cmd × ℚ),
      (∀ e ∈ es, dictGet e.2 "modifier" = Option.none → phraseScore ws e.1 = 0) →
      es.foldl (bestStep ws) acc = acc := by
  intro es
  induction es with
  | nil => intro acc _; rfl
  | cons e es ih =>
    intro acc hz
    have hstep : bestStep ws acc e = acc := by
      unfold bestStep
      by_cases hm : (dictGet e.2 "modifier").isSome = true
      · simp [hm]
      · have hnone : dictGet e.2 "modifier" = Option.none := by
          cases hd : dictGet e.2 "modifier" with
          | none => rfl
          | some x => rw [hd] at hm; exact absurd rfl hm
        have he : phraseScore ws e.1 = 0 := hz e (List.mem_cons_self _ _) hnone
        simp [hm, he]
    rw [List.foldl_cons, hstep]
    exact ih acc (fun x hx hmx => hz x (List.mem_cons_of_mem _ hx) hmx)

/-- C1: the claim says a bare SpeedModifier phrase yields absent; in the code
the exact-match fast path of line 221 tests only key membership, so the
normalized text fast returns the modifier entry itself, not absent. -/
theorem C1_counterexample :
    parse_command_from_text "fast" ≠ Option.none ∧
    parse_command_from_text "fast" =
      Option.some [("modifier", PyVal.str "speed"), ("value", PyVal.str "fast")] := by
  decide

/-- C1 (amended): the exact-match fast path is terminal for every catalog
phrase, regardless of whether the entry is a CommandTemplate or a
SpeedModifier: whenever the normalized text is a catalog key, match returns a
copy of that entry. -/
theorem C1_exact_path_fires_for_all_entries (text : String) (cmd : Cmd)
    (h : assocGet COMMAND_MAPPINGS (pyStrip (pyLower text)) = Option.some cmd) :
    parse_command_from_text text = Option.some cmd := by
  unfold parse_command_from_text
  simp only [h]

/-- Witness for C1 (amended): the phrase fast is a catalog key mapped to a
SpeedModifier entry, and match on it returns exactly that entry. -/
theorem C1_exact_path_fires_for_all_entries_witness :
    assocGet COMMAND_MAPPINGS (pyStrip (pyLower "fast")) =
      Option.some [("modifier", PyVal.str "speed"), ("value", PyVal.str "fast")] ∧
    parse_command_from_text "fast" =
      Option.some [("modifier", PyVal.str "speed"), ("value", PyVal.str "fast")] :=
  ⟨by decide,
   C1_exact_path_fires_for_all_entries "fast"
     [("modifier", PyVal.str "speed"), ("value", PyVal.str "fast")] (by decide)⟩

/-- C3: when the normalized text is not an exact catalog key, a speed
modifier token was found, and the best-match scan produced a template, the
returned command is that template with its speed field overwritten by the
modifier value. -/
theorem C3_modifier_overrides_speed (text : String) (v : PyVal) (bm : Cmd)
    (hl : assocGet COMMAND_MAPPINGS (pyStrip (pyLower text)) = Option.none)
    (hv : find_speed_modifier (pySplit (pyStrip (pyLower text))) = Option.some v)
    (hb : (find_best (pySplit (pyStrip (pyLower text)))).1 = Option.some bm) :
    parse_command_from_text text = Option.some (dictSet bm "speed" v) := by
  unfold parse_command_from_text
  simp only [hl, hv, hb]

/-- Witness for C3: stop quickly yields the stop template with speed fast
(overwriting the null speed of the template), and turn left slowly yields the
turn-left template with speed slow (overwriting its normal speed). -/
theorem C3_modifier_overrides_speed_witness :
    parse_command_from_text "stop quickly" =
      Option.some [("action", PyVal.str "stop"), ("direction", PyVal.none),
        ("speed", PyVal.str "fast")] ∧
    parse_command_from_text "turn left slowly" =
      Option.some [("action", PyVal.str "turn"), ("direction", PyVal.str "left"),
        ("speed", PyVal.str "slow")] :=
  ⟨(C3_modifier_overrides_speed "stop quickly" (PyVal.str "fast")
      [("action", PyVal.str "stop"), ("direction", PyVal.none), ("speed", PyVal.none)]
      (by decide) (by decide) (by decide)).trans (by decide),
   (C3_modifier_overrides_speed "turn left slowly" (PyVal.str "slow")
      [("action", PyVal.str "turn"), ("direction", PyVal.str "left"), ("speed", PyVal.str "normal")]
      (by decide) (by decide) (by decide)).trans (by decide)⟩

/-- C6: when the normalized text is not an exact catalog key and every
CommandTemplate phrase (modifier-free catalog entry) scores zero against its
tokens, match returns absent; SpeedModifier entries may score freely, since
the scan skips them. -/
theorem C6_zero_scores_give_absent (text : String)
    (hl : assocGet COMMAND_MAPPINGS (pyStrip (pyLower text)) = Option.none)
    (hz : ∀ e ∈ COMMAND_MAPPINGS, dictGet e.2 "modifier" = Option.none →
      phraseScore (pySplit (pyStrip (pyLower text))) e.1 = 0) :
    parse_command_from_text text = Option.none := by
  unfold parse_command_from_text
  have hfb : find_best (pySplit (pyStrip (pyLower text))) = (Option.none, 0) := by
    unfold find_best
    exact foldl_bestStep_of_zero _ _ _ hz
  simp only [hl, hfb]

/-- Witness for C6: the empty transcript and a whitespace-only transcript
return absent, and so does very quickly, where a SpeedModifier entry scores
but no CommandTemplate phrase shares a word with the input. -/
theorem C6_zero_scores_give_absent_witness :
    parse_command_from_text "" = Option.none ∧
    parse_command_from_text "   " = Option.none ∧
    parse_command_from_text "very quickly" = Option.none :=
  ⟨C6_zero_scores_give_absent "" (by decide) (by decide),
   C6_zero_scores_give_absent "   " (by decide) (by decide),
   C6_zero_scores_give_absent "very quickly" (by decide) (by decide)⟩

/-- C7: the speed modifier used is the one of the first token in input order
whose catalog entry is a SpeedModifier; the conclusion does not depend on the
tokens after that hit, so every later modifier token is ignored. -/
theorem C7_first_modifier_token_wins (ws1 ws2 : List String) (w : String)
    (hw : isSpeedWord w = true)
    (h1 : ∀ u ∈ ws1, isSpeedWord u = false) :
    find_speed_modifier (ws1 ++ w :: ws2) =
      (assocGet COMMAND_MAPPINGS w).bind (fun c => dictGet c "value") := by
  induction ws1 with
  | nil =>
    rw [List.nil_append]
    simp only [find_speed_modifier, hw, if_true]
  | cons u us ih =>
    have hu : isSpeedWord u = false := h1 u (List.mem_cons_self _ _)
    rw [List.cons_append]
    simp only [find_speed_modifier, hu, Bool.false_eq_true, if_false]
    exact ih (fun x hx => h1 x (List.mem_cons_of_mem _ hx))

/-- Witness for C7: in go quickly slowly, the first modifier token quickly
wins and the later token slowly is ignored. -/
theorem C7_first_modifier_token_wins_witness :
    find_speed_modifier ["go", "quickly", "slowly"] = Option.some (PyVal.str "fast") :=
  (C7_first_modifier_token_wins ["go"] ["slowly"] "quickly" (by decide) (by decide)).trans
    (by decide)

/-- Helper: a candidate entry has a strictly positive normalized score. -/
lemma entryNS_pos_of_candidate (ws : List String) (e : String × Cmd)
    (h : isCandidate ws e = true) : 0 < entryNS ws e := by
  unfold isCandidate at h
  rw [Bool.and_eq_true] at h
  have hsc : 0 < phraseScore ws e.1 := of_decide_eq_true h.2
  have hlen : 0 < (pySplit e.1).length := by
    have hle := List.length_filter_le (fun w => ws.contains w) (pySplit e.1)
    unfold phraseScore at hsc
    omega
  unfold entryNS
  rw [Rat.mkRat_eq_div]
  apply div_pos
  · exact_mod_cast hsc
  · exact_mod_cast hlen

/-- Helper: the spec-side best score is never negative. -/
lemma specMaxScore_nonneg (ws : List String) :
    ∀ es : List (String × Cmd), 0 ≤ specMaxScore ws es := by
  intro es
  induction es with
  | nil => exact le_refl 0
  | cons e es ih =>
    unfold specMaxScore
    by_cases hc : isCandidate ws e = true
    · rw [if_pos hc]
      exact le_trans ih (le_max_right _ _)
    · rw [if_neg hc]
      exact ih

/-- Helper: no candidate achieves a nonpositive score, so the first-achiever
scan at a nonpositive target finds nothing. -/
lemma specFirstAt_nonpos (ws : List String) (m : ℚ) (hm : m ≤ 0) :
    ∀ es : List (String × Cmd), specFirstAt ws m es = Option.none := by
  intro es
  induction es with
  | nil => rfl
  | cons e es ih =>
    unfold specFirstAt
    by_cases hc : isCandidate ws e = true
    · have hq := entryNS_pos_of_candidate ws e hc
      have hne : decide (entryNS ws e = m) = false := by
        apply decide_eq_false
        intro hh
        rw [hh] at hq
        exact absurd (lt_of_lt_of_le hq hm) (lt_irrefl 0)
      rw [hc, hne]
      simpa using ih
    · rw [Bool.not_eq_true] at hc
      rw [hc]
      simpa using ih

/-- Helper: on a candidate entry, one loop step replaces the accumulator
exactly when the normalized score strictly exceeds the running best. -/
lemma bestStep_eq_of_candidate (ws : List String) (b : Option Cmd) (s : ℚ)
    (e : String × Cmd) (hc : isCandidate ws e = true) :
    bestStep ws (b, s) e =
      if entryNS ws e > s then (Option.some e.2, entryNS ws e) else (b, s) := by
  unfold isCandidate at hc
  rw [Bool.and_eq_true] at hc
  have hsc : 0 < phraseScore ws e.1 := of_decide_eq_true hc.2
  have hmod : (dictGet e.2 "modifier").isSome = false := by
    rcases hc with ⟨h1, _⟩
    cases hd : dictGet e.2 "modifier" with
    | none => rfl
    | some x => rw [hd] at h1; cases h1
  unfold bestStep entryNS
  simp only [hmod, Bool.false_eq_true, if_false]
  by_cases hq : mkRat (phraseScore ws e.1) ((pySplit e.1).length) > s
  · rw [if_pos ⟨hq, hsc⟩, if_pos hq]
  · rw [if_neg (fun hh => hq hh.1), if_neg hq]

/-- Helper: a non-candidate entry never touches the accumulator. -/
lemma bestStep_eq_of_not_candidate (ws : List String) (b : Option Cmd) (s : ℚ)
    (e : String × Cmd) (hc : isCandidate ws e = false) :
    bestStep ws (b, s) e = (b, s) := by
  unfold isCandidate at hc
  rw [Bool.and_eq_false_iff] at hc
  rcases hc with h1 | h2
  · have hmod : (dictGet e.2 "modifier").isSome = true := by
      cases hd : dictGet e.2 "modifier" with
      | none => rw [hd] at h1; cases h1
      | some x => rfl
    unfold bestStep
    simp only [hmod, if_true]
  · have hsc : phraseScore ws e.1 = 0 := by
      have := of_decide_eq_false h2
      omega
    unfold bestStep
    by_cases hmod : (dictGet e.2 "modifier").isSome = true
    · simp only [hmod, if_true]
    · rw [Bool.not_eq_true] at hmod
      simp only [hmod, Bool.false_eq_true, if_false, hsc]
      rw [if_neg (fun hh => lt_irrefl 0 hh.2)]

/-- Helper: the running-best fold of the source equals, for any starting
accumulator with a nonnegative score, either the untouched accumulator (when
no candidate beats it) or the first candidate achieving the best score of the
list.  This is the exact content of the strict-greater-than replacement rule. -/
lemma foldl_bestStep_spec (ws : List String) :
    ∀ (es : List (String × Cmd)) (b : Option Cmd) (s : ℚ), 0 ≤ s →
      es.foldl (bestStep ws) (b, s) =
        if specMaxScore ws es > s then
          (specFirstAt ws (specMaxScore ws es) es, specMaxScore ws es)
        else (b, s) := by
  intro es
  induction es with
  | nil =>
    intro b s hs
    rw [List.foldl_nil]
    unfold specMaxScore
    rw [if_neg (not_lt.mpr hs)]
  | cons e es ih =>
    intro b s hs
    rw [List.foldl_cons]
    by_cases hc : isCandidate ws e = true
    · rw [bestStep_eq_of_candidate ws b s e hc]
      have hq := entryNS_pos_of_candidate ws e hc
      by_cases hlt : entryNS ws e > s
      · rw [if_pos hlt]
        rw [ih (Option.some e.2) (entryNS ws e) (le_of_lt hq)]
        simp only [specMaxScore]
        rw [if_pos hc]
        have hmax : max (entryNS ws e) (specMaxScore ws es) > s :=
          lt_of_lt_of_le hlt (le_max_left _ _)
        rw [if_pos hmax]
        rcases le_or_lt (specMaxScore ws es) (entryNS ws e) with hMq | hqM
        · rw [max_eq_left hMq]
          rw [if_neg (not_lt.mpr hMq)]
          simp only [specFirstAt]
          simp [hc]
        · rw [max_eq_right (le_of_lt hqM)]
          rw [if_pos hqM]
          simp only [specFirstAt]
          have hzero : (isCandidate ws e &&
              decide (entryNS ws e = specMaxScore ws es)) = false := by
            rw [hc, Bool.true_and]
            exact decide_eq_false (ne_of_lt hqM)
          rw [hzero]
          simp only [Bool.false_eq_true, if_false]
      · rw [if_neg hlt]
        rw [ih b s hs]
        have hqs : entryNS ws e ≤ s := not_lt.mp hlt
        simp only [specMaxScore]
        rw [if_pos hc]
        by_cases hMs : specMaxScore ws es > s
        · have hmax : max (entryNS ws e) (specMaxScore ws es) = specMaxScore ws es :=
            max_eq_right (le_trans hqs (le_of_lt hMs))
          rw [hmax]
          rw [if_pos hMs, if_pos hMs]
          simp only [specFirstAt]
          have hzero : (isCandidate ws e &&
              decide (entryNS ws e = specMaxScore ws es)) = false := by
            rw [hc, Bool.true_and]
            exact decide_eq_false (ne_of_lt (lt_of_le_of_lt hqs hMs))
          rw [hzero]
          simp only [Bool.false_eq_true, if_false]
        · have hmax : max (entryNS ws e) (specMaxScore ws es) ≤ s :=
            max_le hqs (not_lt.mp hMs)
          rw [if_neg hMs, if_neg (not_lt.mpr hmax)]
    · rw [Bool.not_eq_true] at hc
      rw [bestStep_eq_of_not_candidate ws b s e hc]
      rw [ih b s hs]
      simp only [specMaxScore, specFirstAt, hc, Bool.false_and, Bool.false_eq_true, if_false]

/-- C2: refinement of the tie-break policy.  The command kept by the
running-best loop is exactly the command of the first phrase in catalog
definition order achieving the best positive score, because the best is
replaced only on a strictly greater score; so equal-scoring later phrases
never displace an earlier one. -/
theorem C2_first_best_phrase_wins (words : List String) :
    (find_best words).1 = spec_first_best words COMMAND_MAPPINGS := by
  unfold find_best spec_first_best
  rw [foldl_bestStep_spec words COMMAND_MAPPINGS Option.none 0 (le_refl 0)]
  by_cases h : specMaxScore words COMMAND_MAPPINGS > 0
  · rw [if_pos h]
  · rw [if_neg h]
    rw [specFirstAt_nonpos words (specMaxScore words COMMAND_MAPPINGS) (not_lt.mp h)
      COMMAND_MAPPINGS]

/-- Witness for C2: on the tokens of go really forward, the phrases forward
and go forward tie at score one and the earlier phrase forward wins, so the
match result equals the result for forward alone. -/
theorem C2_first_best_phrase_wins_witness :
    (find_best (pySplit "go really forward")).1 =
      spec_first_best (pySplit "go really forward") COMMAND_MAPPINGS ∧
    parse_command_from_text "go really forward" = parse_command_from_text "forward" :=
  ⟨C2_first_best_phrase_wins (pySplit "go really forward"), by decide⟩

/-- Helper: the polling loop only ever inspects the poll outcomes of the
seconds elapsed through elapsed plus remaining minus one. -/
lemma transcribe_poll_congr (g g' : Nat → JobPoll) :
    ∀ (r e : Nat), (∀ i, e ≤ i → i < e + r → g i = g' i) →
      transcribe_poll g e r = transcribe_poll g' e r := by
  intro r
  induction r with
  | zero => intro e _; rfl
  | succ r ih =>
    intro e h
    have he : g' e = g e := (h e (le_refl e) (by omega)).symm
    unfold transcribe_poll
    rw [he]
    cases hge : g e with
    | completed f => cases f <;> rfl
    | failed => rfl
    | inProgress =>
      exact ih (e + wait_interval)
        (fun i h1 h2 => h i (le_trans (by omega) h1)
          (by have hwi : wait_interval = 1 := rfl; omega))

/-- Helper: when the job reports FAILED at some polled second before any
completion, the loop falls through and the function returns absent. -/
lemma transcribe_poll_failed_none (g : Nat → JobPoll) :
    ∀ (r e j : Nat), e ≤ j → j < e + r → g j = JobPoll.failed →
      (∀ i, e ≤ i → i < j → g i = JobPoll.inProgress) →
      transcribe_poll g e r = Option.none := by
  intro r
  induction r with
  | zero => intro e j h1 h2 _ _; omega
  | succ r ih =>
    intro e j h1 h2 hj hpre
    unfold transcribe_poll
    rcases eq_or_lt_of_le h1 with heq | hlt
    · rw [← heq] at hj
      rw [hj]
    · have hge : g e = JobPoll.inProgress := hpre e (le_refl e) hlt
      rw [hge]
      have hwi : wait_interval = 1 := rfl
      exact ih (e + wait_interval) j (by omega) (by omega) hj
        (fun i hi1 hi2 => hpre i (le_trans (by omega) hi1) hi2)

/-- Helper: when no polled second reports completion or failure within the
window, the loop runs out of budget and returns absent. -/
lemma transcribe_poll_timeout_none (g : Nat → JobPoll) :
    ∀ (r e : Nat), (∀ i, e ≤ i → i < e + r → g i = JobPoll.inProgress) →
      transcribe_poll g e r = Option.none := by
  intro r
  induction r with
  | zero => intro e _; rfl
  | succ r ih =>
    intro e h
    unfold transcribe_poll
    rw [h e (le_refl e) (by omega)]
    have hwi : wait_interval = 1 := rfl
    exact ih (e + wait_interval)
      (fun i h1 h2 => h i (le_trans (by omega) h1) (by omega))

/-- C9: the polling loop is a bounded busy-wait.  It polls at most
max_wait_time times, at one poll per elapsed second, and its result depends
only on the poll outcomes of the first max_wait_time seconds; transcription
returns absent whenever the job reports failure before completing, and
whenever no completion occurs within the max_wait_time second window.
Termination itself is structural: transcribe_poll recurses on the remaining
poll budget. -/
theorem C9_polling_bounded_absent_on_failure_or_timeout :
    (∀ g g' : Nat → JobPoll, (∀ i, i < max_wait_time → g i = g' i) →
      transcribe_poll g 0 max_wait_time = transcribe_poll g' 0 max_wait_time) ∧
    (∀ (env : TranscribeEnv) (j : Nat), j < max_wait_time →
      env.getJob j = JobPoll.failed →
      (∀ i, i < j → env.getJob i = JobPoll.inProgress) →
      transcribe_audio env = Option.none) ∧
    (∀ env : TranscribeEnv, (∀ i, i < max_wait_time → env.getJob i = JobPoll.inProgress) →
      transcribe_audio env = Option.none) := by
  refine ⟨?_, ?_, ?_⟩
  · intro g g' h
    exact transcribe_poll_congr g g' max_wait_time 0 (fun i _ h2 => h i (by omega))
  · intro env j hj hfail hpre
    unfold transcribe_audio
    cases hs : env.startJobResult with
    | error s => rfl
    | ok u =>
      exact transcribe_poll_failed_none env.getJob max_wait_time 0 j (Nat.zero_le j)
        (by omega) hfail (fun i _ h2 => hpre i h2)
  · intro env h
    unfold transcribe_audio
    cases hs : env.startJobResult with
    | error s => rfl
    | ok u =>
      exact transcribe_poll_timeout_none env.getJob max_wait_time 0
        (fun i _ h2 => h i (by omega))

/-- Witness for C9: a job that stays in progress forever times out to absent,
and a job that fails on the first poll yields absent. -/
theorem C9_polling_bounded_absent_on_failure_or_timeout_witness :
    transcribe_audio ⟨Except.ok (), fun _ => JobPoll.inProgress, Except.ok ()⟩ =
      Option.none ∧
    transcribe_audio ⟨Except.ok (), fun _ => JobPoll.failed, Except.ok ()⟩ =
      Option.none :=
  ⟨C9_polling_bounded_absent_on_failure_or_timeout.2.2 _ (fun i _ => rfl),
   C9_polling_bounded_absent_on_failure_or_timeout.2.1 _ 0 (by decide) rfl
     (fun i hi => absurd hi (Nat.not_lt_zero i))⟩

/-- Helper: unfolding equation of assocGet on a cons cell. -/
lemma assocGet_cons {β : Type} (a : String) (b : β) (d : List (String × β)) (k : String) :
    assocGet ((a, b) :: d) k = if a = k then Option.some b else assocGet d k := rfl

/-- Helper: updating one key leaves every other key unchanged. -/
lemma assocGet_update_ne (k k' : String) (v : PyVal) (h : k' ≠ k) :
    ∀ d : Cmd, assocGet (d.map (fun p => if p.1 = k then (p.1, v) else p)) k' =
      assocGet d k' := by
  intro d
  induction d with
  | nil => rfl
  | cons p d ih =>
    obtain ⟨a, b⟩ := p
    rw [List.map_cons]
    by_cases hp : a = k
    · subst hp
      have hak : a ≠ k' := fun hh => h hh.symm
      simp [assocGet_cons, hak, ih]
    · simp [assocGet_cons, hp, ih]

/-- Helper: updating a present key makes reading it return the new value. -/
lemma assocGet_update_self (k : String) (v : PyVal) :
    ∀ d : Cmd, (assocGet d k).isSome = true →
      assocGet (d.map (fun p => if p.1 = k then (p.1, v) else p)) k = Option.some v := by
  intro d
  induction d with
  | nil => intro h; cases h
  | cons p d ih =>
    obtain ⟨a, b⟩ := p
    intro h
    rw [List.map_cons]
    by_cases hp : a = k
    · subst hp
      simp [assocGet_cons]
    · rw [assocGet_cons, if_neg hp] at h
      simp [assocGet_cons, hp, ih h]

/-- Helper: appending a fresh key pair does not disturb other keys. -/
lemma assocGet_append_single_ne (k k' : String) (v : PyVal) (h : k' ≠ k) :
    ∀ d : Cmd, assocGet (d ++ [(k, v)]) k' = assocGet d k' := by
  intro d
  induction d with
  | nil =>
    rw [List.nil_append, assocGet_cons, if_neg (fun hh => h hh.symm)]
  | cons p d ih =>
    obtain ⟨a, b⟩ := p
    rw [List.cons_append, assocGet_cons, assocGet_cons, ih]

/-- Helper: appending an absent key pair makes reading that key return the
appended value. -/
lemma assocGet_append_single_self (k : String) (v : PyVal) :
    ∀ d : Cmd, assocGet d k = Option.none → assocGet (d ++ [(k, v)]) k = Option.some v := by
  intro d
  induction d with
  | nil => intro _; rw [List.nil_append, assocGet_cons, if_pos rfl]
  | cons p d ih =>
    obtain ⟨a, b⟩ := p
    intro h
    rw [assocGet_cons] at h
    by_cases hp : a = k
    · rw [if_pos hp] at h; cases h
    · rw [if_neg hp] at h
      rw [List.cons_append, assocGet_cons, if_neg hp]
      exact ih h

/-- Helper: after d[k] = v, reading k gives v. -/
lemma dictGet_dictSet_self (d : Cmd) (k : String) (v : PyVal) :
    dictGet (dictSet d k v) k = Option.some v := by
  unfold dictSet
  by_cases hs : (dictGet d k).isSome = true
  · rw [if_pos hs]
    exact assocGet_update_self k v d hs
  · rw [if_neg hs]
    have hnone : assocGet d k = Option.none := by
      cases hd : assocGet d k with
      | none => rfl
      | some x => unfold dictGet at hs; rw [hd] at hs; exact absurd rfl hs
    exact assocGet_append_single_self k v d hnone

/-- Helper: after d[k] = v, every other key reads as before. -/
lemma dictGet_dictSet_ne (d : Cmd) (k k' : String) (v : PyVal) (h : k' ≠ k) :
    dictGet (dictSet d k v) k' = dictGet d k' := by
  unfold dictSet
  by_cases hs : (dictGet d k).isSome = true
  · rw [if_pos hs]
    exact assocGet_update_ne k k' v h d
  · rw [if_neg hs]
    exact assocGet_append_single_ne k k' v h d

/-- Helper: a candidate entry carries no modifier key. -/
lemma modifier_none_of_candidate (ws : List String) (e : String × Cmd)
    (hc : isCandidate ws e = true) : dictGet e.2 "modifier" = Option.none := by
  unfold isCandidate at hc
  rw [Bool.and_eq_true] at hc
  cases hd : dictGet e.2 "modifier" with
  | none => rfl
  | some x => rcases hc with ⟨h1, _⟩; rw [hd] at h1; cases h1

/-- Helper: any command the best-match fold carries out of the loop is the
entry of some modifier-free catalog element of the folded list. -/
lemma foldl_bestStep_mem (ws : List String) :
    ∀ (es : List (String × Cmd)) (b : Option Cmd) (s : ℚ) (c : Cmd),
      (es.foldl (bestStep ws) (b, s)).1 = Option.some c →
      b = Option.some c ∨ ∃ e ∈ es, dictGet e.2 "modifier" = Option.none ∧ c = e.2 := by
  intro es
  induction es with
  | nil => intro b s c h; exact Or.inl h
  | cons e es ih =>
    intro b s c h
    rw [List.foldl_cons] at h
    by_cases hc : isCandidate ws e = true
    · rw [bestStep_eq_of_candidate ws b s e hc] at h
      by_cases hlt : entryNS ws e > s
      · rw [if_pos hlt] at h
        rcases ih (Option.some e.2) (entryNS ws e) c h with h1 | ⟨e2, hm2, hmod2, hc2⟩
        · exact Or.inr ⟨e, List.mem_cons_self _ _, modifier_none_of_candidate ws e hc,
            (Option.some.inj h1).symm⟩
        · exact Or.inr ⟨e2, List.mem_cons_of_mem _ hm2, hmod2, hc2⟩
      · rw [if_neg hlt] at h
        rcases ih b s c h with h1 | ⟨e2, hm2, hmod2, hc2⟩
        · exact Or.inl h1
        · exact Or.inr ⟨e2, List.mem_cons_of_mem _ hm2, hmod2, hc2⟩
    · rw [Bool.not_eq_true] at hc
      rw [bestStep_eq_of_not_candidate ws b s e hc] at h
      rcases ih b s c h with h1 | ⟨e2, hm2, hmod2, hc2⟩
      · exact Or.inl h1
      · exact Or.inr ⟨e2, List.mem_cons_of_mem _ hm2, hmod2, hc2⟩

/-- Helper: every modifier-free catalog entry carries action, direction and
speed keys and no value key. -/
lemma catalog_template_fields :
    ∀ e ∈ COMMAND_MAPPINGS, dictGet e.2 "modifier" = Option.none →
      (dictGet e.2 "action").isSome = true ∧ (dictGet e.2 "direction").isSome = true ∧
      (dictGet e.2 "speed").isSome = true ∧ dictGet e.2 "value" = Option.none := by
  decide

/-- C10: a command produced by the best-match scan (normalized text not a
catalog key) is a copy of some modifier-free CommandTemplate entry, possibly
with its speed overwritten; it carries action, direction and speed keys and
never a modifier or value key, because entries with a modifier key are
skipped by the scan. -/
theorem C10_best_match_is_template_copy (text : String) (c : Cmd)
    (hl : assocGet COMMAND_MAPPINGS (pyStrip (pyLower text)) = Option.none)
    (hp : parse_command_from_text text = Option.some c) :
    ∃ e ∈ COMMAND_MAPPINGS, dictGet e.2 "modifier" = Option.none ∧
      (c = e.2 ∨ ∃ v, c = dictSet e.2 "speed" v) ∧
      (dictGet c "action").isSome = true ∧
      (dictGet c "direction").isSome = true ∧
      (dictGet c "speed").isSome = true ∧
      dictGet c "modifier" = Option.none ∧
      dictGet c "value" = Option.none := by
  unfold parse_command_from_text at hp
  simp only [hl] at hp
  cases hb : (find_best (pySplit (pyStrip (pyLower text)))).1 with
  | none => rw [hb] at hp; cases hp
  | some bm =>
    rw [hb] at hp
    unfold find_best at hb
    have hmem := foldl_bestStep_mem (pySplit (pyStrip (pyLower text)))
      COMMAND_MAPPINGS Option.none 0 bm hb
    rcases hmem with h1 | ⟨e, he, hmod, hbm⟩
    · cases h1
    obtain ⟨ha, hd, hsp, hv0⟩ := catalog_template_fields e he hmod
    cases hv : find_speed_modifier (pySplit (pyStrip (pyLower text))) with
    | none =>
      rw [hv] at hp
      have hc : c = e.2 := (Option.some.inj hp).symm.trans hbm
      refine ⟨e, he, hmod, Or.inl hc, ?_, ?_, ?_, ?_, ?_⟩
      · rw [hc]; exact ha
      · rw [hc]; exact hd
      · rw [hc]; exact hsp
      · rw [hc]; exact hmod
      · rw [hc]; exact hv0
    | some v =>
      rw [hv] at hp
      have hc : c = dictSet e.2 "speed" v := by
        rw [← hbm]; exact (Option.some.inj hp).symm
      refine ⟨e, he, hmod, Or.inr ⟨v, hc⟩, ?_, ?_, ?_, ?_, ?_⟩
      · rw [hc, dictGet_dictSet_ne e.2 "speed" "action" v (by decide)]; exact ha
      · rw [hc, dictGet_dictSet_ne e.2 "speed" "direction" v (by decide)]; exact hd
      · rw [hc, dictGet_dictSet_self e.2 "speed" v]; rfl
      · rw [hc, dictGet_dictSet_ne e.2 "speed" "modifier" v (by decide)]; exact hmod
      · rw [hc, dictGet_dictSet_ne e.2 "speed" "value" v (by decide)]; exact hv0

/-- Witness for C10: the transcript please move forward now is not a catalog
key, and the produced command is a copy of a template entry with the three
command fields and no modifier or value field. -/
theorem C10_best_match_is_template_copy_witness :
    ∃ e ∈ COMMAND_MAPPINGS, dictGet e.2 "modifier" = Option.none ∧
      ([("action", PyVal.str "move"), ("direction", PyVal.str "forward"),
          ("speed", PyVal.str "normal")] = e.2 ∨
        ∃ v, [("action", PyVal.str "move"), ("direction", PyVal.str "forward"),
          ("speed", PyVal.str "normal")] = dictSet e.2 "speed" v) ∧
      (dictGet [("action", PyVal.str "move"), ("direction", PyVal.str "forward"),
        ("speed", PyVal.str "normal")] "action").isSome = true ∧
      (dictGet [("action", PyVal.str "move"), ("direction", PyVal.str "forward"),
        ("speed", PyVal.str "normal")] "direction").isSome = true ∧
      (dictGet [("action", PyVal.str "move"), ("direction", PyVal.str "forward"),
        ("speed", PyVal.str "normal")] "speed").isSome = true ∧
      dictGet [("action", PyVal.str "move"), ("direction", PyVal.str "forward"),
        ("speed", PyVal.str "normal")] "modifier" = Option.none ∧
      dictGet [("action", PyVal.str "move"), ("direction", PyVal.str "forward"),
        ("speed", PyVal.str "normal")] "value" = Option.none :=
  C10_best_match_is_template_copy "please move forward now"
    [("action", PyVal.str "move"), ("direction", PyVal.str "forward"),
      ("speed", PyVal.str "normal")]
    (by decide) (by decide)

/-- Helper: the catalog keys are pairwise distinct. -/
lemma catalog_keys_nodup : (COMMAND_MAPPINGS.map Prod.fst).Nodup := by
  decide

/-- Helper: every catalog key is already lowercase and stripped, so
normalization leaves it unchanged. -/
lemma catalog_keys_normalized : ∀ e ∈ COMMAND_MAPPINGS, pyStrip (pyLower e.1) = e.1 := by
  decide

/-- Helper: in an association list with distinct keys, membership determines
the lookup result. -/
lemma assocGet_of_mem_nodup : ∀ (l : List (String × Cmd)) (p : String) (c : Cmd),
    (l.map Prod.fst).Nodup → (p, c) ∈ l → assocGet l p = Option.some c := by
  intro l
  induction l with
  | nil => intro p c _ h; cases h
  | cons e l ih =>
    intro p c hnd hmem
    rw [List.map_cons, List.nodup_cons] at hnd
    rcases List.mem_cons.mp hmem with heq | htail
    · rw [← heq]
      rw [assocGet_cons, if_pos rfl]
    · have hne : e.1 ≠ p := by
        intro hh
        apply hnd.1
        rw [hh]
        exact List.mem_map_of_mem Prod.fst htail
      obtain ⟨a, b⟩ := e
      rw [assocGet_cons, if_neg hne]
      exact ih p c hnd.2 htail

/-- Helper: setting the final freshly appended element leaves the original
list untouched and replaces only the appended cell. -/
lemma set_append_last (x c : Cmd) : ∀ l : Store, (l ++ [c]).set l.length x = l ++ [x] := by
  intro l
  induction l with
  | nil => rfl
  | cons a l ih =>
    simp only [List.cons_append, List.length_cons, List.set_cons_succ, ih]

/-- Helper: mutating through a reference to the freshly appended dict only
rewrites that dict. -/
lemma setRef_append_last (s : Store) (c : Cmd) (k : String) (v : PyVal) :
    setRef (s ++ [c]) s.length k v = s ++ [dictSet c k v] := by
  unfold setRef
  rw [List.get?_concat_length]
  show List.set (s ++ [c]) s.length (dictSet c k v) = s ++ [dictSet c k v]
  rw [set_append_last]

/-- Helper: no call of the matcher ever rewrites the catalog segment of the
store; every allocation lands strictly beyond it. -/
lemma parse_command_ref_take (text : String) (s : Store) :
    (parse_command_ref text s).1.take s.length = s := by
  unfold parse_command_ref
  cases hl : assocGet COMMAND_MAPPINGS (pyStrip (pyLower text)) with
  | some cmd =>
    simp only [hl, alloc]
    exact List.take_left s [cmd]
  | none =>
    cases hb : (find_best (pySplit (pyStrip (pyLower text)))).1 with
    | none =>
      simp only [hl, hb]
      exact List.take_length s
    | some bm =>
      cases hv : find_speed_modifier (pySplit (pyStrip (pyLower text))) with
      | none =>
        simp only [hl, hb, hv, alloc]
        exact List.take_left s [bm]
      | some v =>
        simp only [hl, hb, hv, alloc]
        rw [setRef_append_last]
        exact List.take_left s [dictSet bm "speed" v]

/-- C8: for a catalog phrase mapped to a CommandTemplate, match returns a
reference to a freshly allocated dict whose contents equal the catalog entry;
the catalog segment of the store is untouched by the call, any later mutation
through the returned reference leaves the catalog segment untouched, and no
call of the matcher on any text ever rewrites the catalog segment. -/
theorem C8_match_returns_independent_copy (p : String) (cmd : Cmd)
    (hmem : (p, cmd) ∈ COMMAND_MAPPINGS)
    (htpl : dictGet cmd "modifier" = Option.none) :
    parse_command_ref p catalogStore =
      (catalogStore ++ [cmd], Option.some catalogStore.length) ∧
    (parse_command_ref p catalogStore).1.get? catalogStore.length = Option.some cmd ∧
    (parse_command_ref p catalogStore).1.take catalogStore.length = catalogStore ∧
    (∀ k v, (setRef (parse_command_ref p catalogStore).1 catalogStore.length k v).take
        catalogStore.length = catalogStore) ∧
    (∀ text, (parse_command_ref text catalogStore).1.take catalogStore.length =
        catalogStore) := by
  have hkey : pyStrip (pyLower p) = p := catalog_keys_normalized (p, cmd) hmem
  have hlook : assocGet COMMAND_MAPPINGS p = Option.some cmd :=
    assocGet_of_mem_nodup COMMAND_MAPPINGS p cmd catalog_keys_nodup hmem
  have heq : parse_command_ref p catalogStore =
      (catalogStore ++ [cmd], Option.some catalogStore.length) := by
    unfold parse_command_ref
    simp only [hkey, hlook, alloc]
  refine ⟨heq, ?_, ?_, ?_, ?_⟩
  · rw [heq]
    exact List.get?_concat_length catalogStore cmd
  · rw [heq]
    exact List.take_left catalogStore [cmd]
  · intro k v
    rw [heq]
    rw [setRef_append_last]
    exact List.take_left catalogStore [dictSet cmd k v]
  · intro text
    exact parse_command_ref_take text catalogStore

/-- Witness for C8: matching the phrase forward allocates a fresh copy of the
forward template, and writing a rover address into the returned dict leaves
the catalog segment of the store unchanged. -/
theorem C8_match_returns_independent_copy_witness :
    parse_command_ref "forward" catalogStore =
      (catalogStore ++ [[("action", PyVal.str "move"), ("direction", PyVal.str "forward"),
        ("speed", PyVal.str "normal")]], Option.some catalogStore.length) ∧
    (setRef (parse_command_ref "forward" catalogStore).1 catalogStore.length "rover_ip"
        (PyVal.str "10.0.0.7")).take catalogStore.length = catalogStore := by
  have h := C8_match_returns_independent_copy "forward"
    [("action", PyVal.str "move"), ("direction", PyVal.str "forward"),
      ("speed", PyVal.str "normal")]
    (by decide) (by decide)
  exact ⟨h.1, h.2.2.2.1 "rover_ip" (PyVal.str "10.0.0.7")⟩

/-- C4: the claim says decoding, storage and network faults yield HTTP 500;
in the code every fault raised inside process_voice_command is caught at
lines 141-143 and becomes None, which the handler maps to HTTP 400 with the
generic no-command message: a base64 decoding fault yields 400, not 500. -/
theorem C4_counterexample :
    (lambda_handler
        ⟨Except.error "Invalid base64-encoded string", Except.ok (),
          ⟨Except.ok (), fun _ => JobPoll.inProgress, Except.ok ()⟩, Except.ok ()⟩
        0 ⟨Option.some (EventBody.parsed ⟨Option.some "!!!", Option.none⟩)⟩).statusCode
      = 400 ∧
    (lambda_handler
        ⟨Except.error "Invalid base64-encoded string", Except.ok (),
          ⟨Except.ok (), fun _ => JobPoll.inProgress, Except.ok ()⟩, Except.ok ()⟩
        0 ⟨Option.some (EventBody.parsed ⟨Option.some "!!!", Option.none⟩)⟩).statusCode
      ≠ 500 ∧
    (lambda_handler
        ⟨Except.error "Invalid base64-encoded string", Except.ok (),
          ⟨Except.ok (), fun _ => JobPoll.inProgress, Except.ok ()⟩, Except.ok ()⟩
        0 ⟨Option.some (EventBody.parsed ⟨Option.some "!!!", Option.none⟩)⟩).body.error
      = Option.some "No valid command recognized" := by
  refine ⟨rfl, ?_, rfl⟩
  intro h
  cases h

/-- C4 (amended): faults raised during audio processing (base64 decoding,
blob-store upload, or starting the transcription job) are swallowed by the
pipeline and surface as HTTP 400 with the no-command message; only a fault
while parsing the request body itself reaches the top-level handler and
yields HTTP 500 with the fault text in the response body. -/
theorem C4_pipeline_faults_give_400 (env : PipelineEnv) (now : Nat) (a : String)
    (rip : Option String) (m : String)
    (h : (∃ s, env.decodeResult = Except.error s) ∨
         (∃ s, env.putResult = Except.error s) ∨
         (∃ s, env.trans.startJobResult = Except.error s)) :
    lambda_handler env now ⟨Option.some (EventBody.parsed ⟨Option.some a, rip⟩)⟩ =
      create_error_response 400 "No valid command recognized" now ∧
    lambda_handler env now ⟨Option.some (EventBody.malformed m)⟩ =
      create_error_response 500 ("Internal server error: " ++ m) now := by
  have hp : process_voice_command env rip = Option.none := by
    unfold process_voice_command
    rcases h with ⟨s, hs⟩ | ⟨s, hs⟩ | ⟨s, hs⟩
    · rw [hs]
    · cases hd : env.decodeResult with
      | error t => rfl
      | ok t => rw [hs]
    · cases hd : env.decodeResult with
      | error t => rfl
      | ok t =>
        cases hpu : env.putResult with
        | error t2 => rfl
        | ok t2 =>
          have ht : transcribe_audio env.trans = Option.none := by
            unfold transcribe_audio
            rw [hs]
          simp only [ht]
          rfl
  constructor
  · unfold lambda_handler
    simp only [hp]
    rfl
  · rfl

/-- Witness for C4 (amended): with a failing decode step the handler answers
400, and a malformed body answers 500 carrying the parse fault text. -/
theorem C4_pipeline_faults_give_400_witness :
    lambda_handler
        ⟨Except.error "Invalid base64-encoded string", Except.ok (),
          ⟨Except.ok (), fun _ => JobPoll.inProgress, Except.ok ()⟩, Except.ok ()⟩
        3 ⟨Option.some (EventBody.parsed ⟨Option.some "audio-bytes", Option.none⟩)⟩ =
      create_error_response 400 "No valid command recognized" 3 ∧
    lambda_handler
        ⟨Except.error "Invalid base64-encoded string", Except.ok (),
          ⟨Except.ok (), fun _ => JobPoll.inProgress, Except.ok ()⟩, Except.ok ()⟩
        3 ⟨Option.some (EventBody.malformed "Expecting value")⟩ =
      create_error_response 500 ("Internal server error: " ++ "Expecting value") 3 :=
  C4_pipeline_faults_give_400
    ⟨Except.error "Invalid base64-encoded string", Except.ok (),
      ⟨Except.ok (), fun _ => JobPoll.inProgress, Except.ok ()⟩, Except.ok ()⟩
    3 "audio-bytes" Option.none "Expecting value"
    (Or.inl ⟨"Invalid base64-encoded string", rfl⟩)

/-- C5: a request with no body, a body with no audio field, or a pipeline
that produced no command (transcription failure and timeout included) gets
HTTP 400 - never 500 - with success false, an error string, and the
timestamp. -/
theorem C5_bad_input_gives_400 (env : PipelineEnv) (now : Nat) (event : Event)
    (h : event.body = Option.none ∨
         (∃ rip, event.body = Option.some (EventBody.parsed ⟨Option.none, rip⟩)) ∨
         (∃ a rip, event.body = Option.some (EventBody.parsed ⟨Option.some a, rip⟩) ∧
            process_voice_command env rip = Option.none)) :
    (lambda_handler env now event).statusCode = 400 ∧
    (lambda_handler env now event).body.success = false ∧
    ((lambda_handler env now event).body.error).isSome = true ∧
    (lambda_handler env now event).body.timestamp = now := by
  rcases h with hb | ⟨rip, hb⟩ | ⟨a, rip, hb, hp⟩
  · unfold lambda_handler
    rw [hb]
    exact ⟨rfl, rfl, rfl, rfl⟩
  · unfold lambda_handler
    rw [hb]
    exact ⟨rfl, rfl, rfl, rfl⟩
  · unfold lambda_handler
    rw [hb]
    simp only [hp]
    exact ⟨rfl, rfl, rfl, rfl⟩

/-- Witness for C5: a transcription job that never completes within the
window produces no command, and the handler answers 400 with success false
and the request timestamp. -/
theorem C5_bad_input_gives_400_witness :
    (lambda_handler
        ⟨Except.ok [0], Except.ok (),
          ⟨Except.ok (), fun _ => JobPoll.inProgress, Except.ok ()⟩, Except.ok ()⟩
        7 ⟨Option.some (EventBody.parsed
          ⟨Option.some "UkVD", Option.some "192.168.1.2"⟩)⟩).statusCode = 400 ∧
    (lambda_handler
        ⟨Except.ok [0], Except.ok (),
          ⟨Except.ok (), fun _ => JobPoll.inProgress, Except.ok ()⟩, Except.ok ()⟩
        7 ⟨Option.some (EventBody.parsed
          ⟨Option.some "UkVD", Option.some "192.168.1.2"⟩)⟩).body.success = false ∧
    ((lambda_handler
        ⟨Except.ok [0], Except.ok (),
          ⟨Except.ok (), fun _ => JobPoll.inProgress, Except.ok ()⟩, Except.ok ()⟩
        7 ⟨Option.some (EventBody.parsed
          ⟨Option.some "UkVD", Option.some "192.168.1.2"⟩)⟩).body.error).isSome = true ∧
    (lambda_handler
        ⟨Except.ok [0], Except.ok (),
          ⟨Except.ok (), fun _ => JobPoll.inProgress, Except.ok ()⟩, Except.ok ()⟩
        7 ⟨Option.some (EventBody.parsed
          ⟨Option.some "UkVD", Option.some "192.168.1.2"⟩)⟩).body.timestamp = 7 :=
  C5_bad_input_gives_400
    ⟨Except.ok [0], Except.ok (),
      ⟨Except.ok (), fun _ => JobPoll.inProgress, Except.ok ()⟩, Except.ok ()⟩
    7 ⟨Option.some (EventBody.parsed ⟨Option.some "UkVD", Option.some "192.168.1.2"⟩)⟩
    (Or.inr (Or.inr ⟨"UkVD", Option.some "192.168.1.2", rfl, by decide⟩))
